import Mathlib

/- ============================================================
   Shallow embedding of src/content.js (PullSmart-Filters browser
   content script).  Pure functions are translated directly; DOM
   and localStorage interactions are modelled by explicit state
   passing; platform functions used by the script (JSON.parse,
   JSON.stringify, encodeURIComponent, innerHTML parsing) are
   modelled from their specification where noted.
   ============================================================ -/

/-- Constant STORAGE_PREFIX, src/content.js line 2. -/
def STORAGE_PREFIX : String := "GH_PR_Filters_"

/-- Constant MAX_RETRY_ATTEMPTS, src/content.js line 6. -/
def MAX_RETRY_ATTEMPTS : Nat := 3

/-- Constant RETRY_DELAY in milliseconds, src/content.js line 7. -/
def RETRY_DELAY : Nat := 500

/-- A saved filter: the label and query strings, src/content.js line 122
(the source calls this shape SavedFilter; that name is taken by Mathlib). -/
structure SavedFilter where
  label : String
  query : String
deriving DecidableEq

/-- The double-quote character, written by code point to keep literals readable. -/
def quoteChar : Char := Char.ofNat 34

/-- Modelled from the spec: JS String startsWith at position 0 over character
lists; startsWithList l sub is true when sub is an initial segment of l. -/
def startsWithList : List Char → List Char → Bool
  | _, [] => true
  | [], _ :: _ => false
  | c :: cs, d :: ds => decide (c = d) && startsWithList cs ds

/-- Modelled from the spec: JS String.prototype.includes (used at line 62);
containsSubList l sub is true when sub occurs contiguously inside l. -/
def containsSubList : List Char → List Char → Bool
  | [], sub => startsWithList [] sub
  | c :: cs, sub => startsWithList (c :: cs) sub || containsSubList cs sub

/-- JS includes lifted to String. -/
def jsIncludes (s sub : String) : Bool := containsSubList s.data sub.data

/-- isPullRequestPage, src/content.js lines 61-63:
window.location.pathname.includes("/pulls"), with the pathname passed
explicitly as an argument. -/
def isPullRequestPage (path : String) : Bool := jsIncludes path "/pulls"

/-- Modelled from the spec: JS String.prototype.split with a one-character
separator: "".split(sep) is [""], and each separator occurrence starts a new
(possibly empty) piece. -/
def splitChar (sep : Char) : List Char → List (List Char)
  | [] => [[]]
  | c :: cs =>
    let r := splitChar sep cs
    if c = sep then [] :: r
    else
      match r with
      | [] => [[c]]
      | x :: xs => (c :: x) :: xs

/-- Modelled from the spec: Array.prototype.join with a slash separator. -/
def joinSlash : List (List Char) → List Char
  | [] => []
  | [x] => x
  | x :: y :: rest => x ++ '/' :: joinSlash (y :: rest)

/-- getRepoPath, src/content.js lines 81-83:
window.location.pathname.split("/").slice(1, 3).join("/"). -/
def getRepoPath (path : String) : String :=
  String.mk (joinSlash (((splitChar '/' path.data).drop 1).take 2))

/-- getStorageKey, src/content.js lines 85-87.  The ambient location path is
passed explicitly (the method could read window.location but does not): the
result is the constant STORAGE_PREFIX ++ "global", independent of the path. -/
def getStorageKey (_path : String) : String := STORAGE_PREFIX ++ "global"

/-- Model of window.localStorage: a map from key strings to optional values. -/
def Store : Type := String → Option String

/-- localStorage.getItem (line 91): missing keys read as null (none). -/
def getItem (store : Store) (key : String) : Option String := store key

/-- localStorage.setItem (line 101); a successful write is modelled (a failing
write in the script only logs, leaving the store unchanged). -/
def setItem (store : Store) (key value : String) : Store :=
  fun k => if k = key then some value else store k

/-- Upper-case hexadecimal digit for a value below 16. -/
def hexUpper (n : Nat) : Char :=
  if n < 10 then Char.ofNat (48 + n) else Char.ofNat (55 + n)

/-- Lower-case hexadecimal digit for a value below 16. -/
def hexLower (n : Nat) : Char :=
  if n < 10 then Char.ofNat (48 + n) else Char.ofNat (87 + n)

/-- Modelled from the spec: the platform function encodeURIComponent used at
line 147 (not part of src/): its unescaped set is the alphanumerics together
with - _ . ! ~ * apostrophe ( ). -/
def uriUnescaped (c : Char) : Bool :=
  (decide ('A' ≤ c) && decide (c ≤ 'Z')) ||
  (decide ('a' ≤ c) && decide (c ≤ 'z')) ||
  (decide ('0' ≤ c) && decide (c ≤ '9')) ||
  [( '-' : Char), '_', '.', '!', '~', '*', Char.ofNat 39, '(', ')'].contains c

/-- The UTF-8 byte sequence of a character, by code-point range. -/
def utf8Bytes (c : Char) : List Nat :=
  let n := c.toNat
  if n < 128 then [n]
  else if n < 2048 then [192 + n / 64, 128 + n % 64]
  else if n < 65536 then [224 + n / 4096, 128 + (n / 64) % 64, 128 + n % 64]
  else [240 + n / 262144, 128 + (n / 4096) % 64, 128 + (n / 64) % 64, 128 + n % 64]

/-- Percent-encoding of one byte, upper-case hexadecimal. -/
def percentEncodeByte (b : Nat) : List Char := ['%', hexUpper (b / 16), hexUpper (b % 16)]

/-- Modelled from the spec: encodeURIComponent keeps unescaped characters and
percent-encodes the UTF-8 bytes of every other character. -/
def encodeURIComponent (s : String) : String :=
  String.mk (s.data.flatMap fun c =>
    if uriUnescaped c then [c] else (utf8Bytes c).flatMap percentEncodeByte)

/-- Modelled from the spec: JSON.stringify escaping of one string character
(ECMA-262 QuoteJSONString): quote and backslash get a backslash escape, the
named control characters their short escapes, the remaining control characters
a four-digit lower-case \u escape, and every other character stands for
itself. -/
def jsonEscapeChar (c : Char) : List Char :=
  if c = quoteChar then ['\\', quoteChar]
  else if c = '\\' then ['\\', '\\']
  else if c = Char.ofNat 8 then ['\\', 'b']
  else if c = Char.ofNat 9 then ['\\', 't']
  else if c = Char.ofNat 10 then ['\\', 'n']
  else if c = Char.ofNat 12 then ['\\', 'f']
  else if c = Char.ofNat 13 then ['\\', 'r']
  else if c.toNat < 32 then ['\\', 'u', '0', '0', hexLower (c.toNat / 16), hexLower (c.toNat % 16)]
  else [c]

/-- JSON string literal for s: quote, escaped characters, quote. -/
def jsonQuoteString (s : String) : List Char :=
  quoteChar :: ((s.data.flatMap jsonEscapeChar) ++ [quoteChar])

/-- The characters of the serialized label key with its opening brace:
an opening brace, "label" in quotes, and a colon. -/
def labelKey : List Char :=
  ['\x7b', quoteChar, 'l', 'a', 'b', 'e', 'l', quoteChar, ':']

/-- The characters of the serialized query key: a comma, "query" in quotes,
and a colon. -/
def queryKey : List Char :=
  [',', quoteChar, 'q', 'u', 'e', 'r', 'y', quoteChar, ':']

/-- JSON.stringify of one filter object; the keys appear in the object's
insertion order at line 122: label, then query. -/
def stringifyFilter (f : SavedFilter) : List Char :=
  labelKey ++ jsonQuoteString f.label ++ queryKey ++ jsonQuoteString f.query ++ ['\x7d']

/-- Array.prototype.join with a comma separator, as JSON.stringify uses for
array elements. -/
def joinComma : List (List Char) → List Char
  | [] => []
  | [x] => x
  | x :: y :: rest => x ++ ',' :: joinComma (y :: rest)

/-- Modelled from the spec: JSON.stringify of the filter array (line 101). -/
def stringifyFilters (fs : List SavedFilter) : String :=
  String.mk (('[' :: joinComma (fs.map stringifyFilter)) ++ [']'])

/-- Value of a single JSON escape character after a backslash (\u handled
separately). -/
def decodeJsonEscape (e : Char) : Option Char :=
  if e = quoteChar then some quoteChar
  else if e = '\\' then some '\\'
  else if e = '/' then some '/'
  else if e = 'b' then some (Char.ofNat 8)
  else if e = 'f' then some (Char.ofNat 12)
  else if e = 'n' then some (Char.ofNat 10)
  else if e = 'r' then some (Char.ofNat 13)
  else if e = 't' then some (Char.ofNat 9)
  else none

/-- Numeric value of a hexadecimal digit character. -/
def hexVal (c : Char) : Option Nat :=
  if '0' ≤ c ∧ c ≤ '9' then some (c.toNat - 48)
  else if 'a' ≤ c ∧ c ≤ 'f' then some (c.toNat - 87)
  else if 'A' ≤ c ∧ c ≤ 'F' then some (c.toNat - 55)
  else none

/-- Four hex digits of a \u escape: the decoded character and the rest.
Surrogate code points are rejected (they cannot occur in the values the
script writes, and Lean characters are scalar values). -/
def parseUEscape : List Char → Option (Char × List Char)
  | h1 :: h2 :: h3 :: h4 :: rest =>
    match hexVal h1, hexVal h2, hexVal h3, hexVal h4 with
    | some v1, some v2, some v3, some v4 =>
      let n := ((v1 * 16 + v2) * 16 + v3) * 16 + v4
      if 55296 ≤ n ∧ n ≤ 57343 then none else some (Char.ofNat n, rest)
    | _, _, _, _ => none
  | _ => none

/-- Modelled from the spec: the JSON string grammar after an opening quote
(part of JSON.parse, a platform function not in src/): literal characters,
backslash escapes, four-digit \u escapes; raw control characters are
rejected.  Returns the decoded characters and the rest after the closing
quote.  The fuel argument only bounds the recursion: every step consumes at
least one character, so fuel equal to the character count never fails
spuriously (see parseJsonString). -/
def parseJsonStringGo : Nat → List Char → Option (List Char × List Char)
  | 0, _ => none
  | fuel + 1, l =>
    match l with
    | [] => none
    | c :: rest =>
      if c = quoteChar then some ([], rest)
      else if c = '\\' then
        match rest with
        | [] => none
        | e :: rest2 =>
          if e = 'u' then
            (parseUEscape rest2).bind fun p =>
              (parseJsonStringGo fuel p.2).map fun q => (p.1 :: q.1, q.2)
          else
            (decodeJsonEscape e).bind fun d =>
              (parseJsonStringGo fuel rest2).map fun q => (d :: q.1, q.2)
      else if c.toNat < 32 then none
      else
        (parseJsonStringGo fuel rest).map fun q => (c :: q.1, q.2)

/-- JSON string body starting after an opening quote. -/
def parseJsonString (l : List Char) : Option (List Char × List Char) :=
  parseJsonStringGo l.length l

/-- Consume an expected literal character sequence, returning the rest. -/
def stripPrefixChars : List Char → List Char → Option (List Char)
  | [], l => some l
  | _ :: _, [] => none
  | p :: ps, c :: cs => if c = p then stripPrefixChars ps cs else none

/-- Modelled from the spec: JSON.parse of one filter object, restricted to the
exact object shape produced by stringifyFilter; other shapes are treated as a
parse error. -/
def parseFilterObj (l : List Char) : Option (SavedFilter × List Char) :=
  match stripPrefixChars (labelKey ++ [quoteChar]) l with
  | none => none
  | some l1 =>
    match parseJsonString l1 with
    | none => none
    | some (lab, l2) =>
      match stripPrefixChars (queryKey ++ [quoteChar]) l2 with
      | none => none
      | some l3 =>
        match parseJsonString l3 with
        | none => none
        | some (q, l4) =>
          match stripPrefixChars ['\x7d'] l4 with
          | none => none
          | some l5 => some (⟨String.mk lab, String.mk q⟩, l5)

/-- Comma-separated filter objects followed by the closing bracket.  The fuel
argument only bounds the number of objects; since every object consumes at
least one character, fuel equal to the character count never fails spuriously. -/
def parseItemsFuel : Nat → List Char → Option (List SavedFilter)
  | 0, _ => none
  | fuel + 1, l =>
    match parseFilterObj l with
    | none => none
    | some (f, rest) =>
      match rest with
      | [']'] => some [f]
      | ',' :: rest2 =>
        match parseItemsFuel fuel rest2 with
        | some fs => some (f :: fs)
        | none => none
      | _ => none

/-- Modelled from the spec: JSON.parse (platform, not in src/) restricted to
the array-of-filter-objects values produced by stringifyFilters; any other
text is treated as a parse error (in the script such text reaches the catch
branch of loadFilters). -/
def parseFilters (s : String) : Option (List SavedFilter) :=
  match s.data with
  | '[' :: rest => if rest = [']'] then some [] else parseItemsFuel rest.length rest
  | _ => none

/-- loadFilters, src/content.js lines 89-97: read the storage key; a falsy
read (missing key or empty string) yields []; a JSON.parse failure is caught
and yields [].  A total function: no exception reaches the caller. -/
def loadFilters (path : String) (store : Store) : List SavedFilter :=
  match getItem store (getStorageKey path) with
  | none => []
  | some s =>
    if s = "" then []
    else
      match parseFilters s with
      | some fs => fs
      | none => []

/-- saveFilters, src/content.js lines 99-105: write JSON.stringify(filters)
under the storage key. -/
def saveFilters (path : String) (filters : List SavedFilter) (store : Store) : Store :=
  setItem store (getStorageKey path) (stringifyFilters filters)

/-- promptAsync, src/content.js lines 133-138: resolves with the prompt
result, a cancelled prompt (null) or empty result coerced to "" by
(result or ""). -/
def promptAsync (result : Option String) : String := result.getD ""

/-- addNewFilter, src/content.js lines 115-131, state-passing view: query is
the current search-input value, promptResult the user's answer (none models a
cancelled prompt).  Returns the new (filters, store) pair and whether the
prompt was shown.  The trailing initializeDropdown call touches only the DOM
and is modelled separately. -/
def addNewFilter (query : String) (promptResult : Option String) (path : String)
    (filters : List SavedFilter) (store : Store) : (List SavedFilter × Store) × Bool :=
  if query = "" then ((filters, store), false)
  else
    let label := promptAsync promptResult
    if label = "" then ((filters, store), true)
    else
      let filters2 := filters ++ [⟨label, query⟩]
      ((filters2, saveFilters path filters2 store), true)

/-- A DOM element in the two mount points: an injected filter item (carrying
the class custom-item), the injected fav button, or a pre-existing host
element. -/
inductive Elem where
  | customItem (label : String) (query : String) (checked : Bool)
  | favButton
  | hostElem (tag : String)
deriving DecidableEq

/-- Whether an element matches the .custom-item selector of line 184. -/
def isCustomItem : Elem → Bool
  | Elem.customItem _ _ _ => true
  | _ => false

/-- createFilterItem, src/content.js lines 146-159, element-level view: the
parsed itemHtml is an anchor with class custom-item carrying the label, query
and checked flag (the string-level view is createFilterItemHtml below). -/
def createFilterItem (label query : String) (checked : Bool) : Elem :=
  Elem.customItem label query checked

/-- The two mount points: children of the #filters-select-menu .SelectMenu-list
dropdown and of the .subnav-search container; none models an absent mount
point. -/
structure DomState where
  filtersDropdown : Option (List Elem)
  filterContainer : Option (List Elem)
deriving DecidableEq

/-- Body of clearOldItems, src/content.js lines 184-187: remove every child
matching .custom-item. -/
def clearOldItemsList (children : List Elem) : List Elem :=
  children.filter (fun e => !isCustomItem e)

/-- clearOldItems, src/content.js lines 179-188: no-op when the dropdown is
absent. -/
def clearOldItems : Option (List Elem) → Option (List Elem)
  | none => none
  | some children => some (clearOldItemsList children)

/-- initializeDropdown, src/content.js lines 190-207: locate the dropdown (or
return), clear old custom items, locate the container (or return), iterate
the reversed filter list prepending one item per filter, and append the fav
button to the container. -/
def initializeDropdown (filters : List SavedFilter) (st : DomState) : DomState :=
  match st.filtersDropdown with
  | none => st
  | some dd =>
    let dd1 := clearOldItemsList dd
    match st.filterContainer with
    | none => { st with filtersDropdown := some dd1 }
    | some fc =>
      let dd2 :=
        if filters.length > 0 then
          (filters.reverse).foldl (fun acc f => createFilterItem f.label f.query false :: acc) dd1
        else dd1
      { filtersDropdown := some dd2, filterContainer := some (fc ++ [Elem.favButton]) }

/-- Observable events of the navigation/retry logic: a timer delay in
milliseconds, a mount-point existence check inside a timer callback, the
console.warn diagnostic, and a render (initializeDropdown call). -/
inductive Event where
  | delayMs (n : Nat)
  | checkMount
  | warnDiag
  | render
deriving DecidableEq

/-- retryInitialization, src/content.js lines 65-79.  attempts is
this.retryAttempts; mount k tells whether the mount point exists when the
k-th scheduled timeout fires.  Returns the final retryAttempts value and the
trace of delay/check/diagnostic/render events. -/
def retryInitialization (attempts : Nat) (mount : Nat → Bool) : Nat × List Event :=
  if MAX_RETRY_ATTEMPTS ≤ attempts then (attempts, [Event.warnDiag])
  else
    let a := attempts + 1
    if mount a then (a, [Event.delayMs RETRY_DELAY, Event.checkMount, Event.render])
    else
      let r := retryInitialization a mount
      (r.1, Event.delayMs RETRY_DELAY :: Event.checkMount :: r.2)
termination_by MAX_RETRY_ATTEMPTS - attempts
decreasing_by simp [MAX_RETRY_ATTEMPTS] at *; omega

/-- handleLocationChange, src/content.js lines 43-59.  prevAttempts is the
retry counter before the trigger, overwritten with 0 at line 45; mount 0 is
the synchronous mount check of line 54 and mount (k+1) the check at the k+1-th
retry timeout.  The loadFilters call of line 52 reads storage only and leaves
no event.  Returns the final retry counter and the event trace. -/
def handleLocationChange (_prevAttempts : Nat) (path : String) (mount : Nat → Bool) :
    Nat × List Event :=
  let attempts := 0
  if !isPullRequestPage path then (attempts, [])
  else if mount 0 then (attempts, [Event.render])
  else retryInitialization attempts mount

/-- Modelled from the spec: minimal model of the browser HTML parsing behind
createElementFromHtml (innerHTML, a platform facility not in src/):
characters between an opening angle bracket and the next closing one are
markup, characters outside are the element's displayed text.  Character
entities are not modelled.  The Bool is the inside-a-tag state. -/
def textContentAux : List Char → Bool → List Char
  | [], _ => []
  | c :: cs, inTag =>
    if c = '<' then textContentAux cs true
    else if c = '>' then textContentAux cs false
    else if inTag then textContentAux cs true
    else c :: textContentAux cs false

/-- The inside-a-tag state after scanning a character list. -/
def tagStateAfter : List Char → Bool → Bool
  | [], st => st
  | c :: cs, st =>
    if c = '<' then tagStateAfter cs true
    else if c = '>' then tagStateAfter cs false
    else tagStateAfter cs st

/-- Displayed text of an HTML string, starting outside any tag. -/
def textContent (s : String) : String := String.mk (textContentAux s.data false)

/-- The href attribute value of createFilterItem's template, line 150:
a slash, getRepoPath, /issues?q= and the encoded query. -/
def filterItemHref (path query : String) : String :=
  "/" ++ getRepoPath path ++ "/issues?q=" ++ encodeURIComponent query

/-- Opening of the template literal of lines 149-156 up to the href value
(after createElementFromHtml's trim of the surrounding whitespace). -/
def itemHtmlPre (checked : Bool) : String :=
  "<a class=\"SelectMenu-item custom-item\" role=\"menuitemradio\" aria-checked=\""
    ++ (if checked then "true" else "false") ++ "\" href=\""

/-- Template text between the href value and the interpolated label: the rest
of the anchor's open tag and the complete svg check icon. -/
def itemHtmlMid : String :=
  "\" data-turbo-frame=\"repo-content-turbo-frame\">\n        <svg aria-hidden=\"true\" height=\"16\" viewBox=\"0 0 16 16\" version=\"1.1\" width=\"16\" data-view-component=\"true\" class=\"octicon octicon-check SelectMenu-icon SelectMenu-icon--check\">\n          <path d=\"M13.78 4.22a.75.75 0 0 1 0 1.06l-7.25 7.25a.75.75 0 0 1-1.06 0L2.22 9.28a.751.751 0 0 1 .018-1.042.751.751 0 0 1 1.042-.018L6 10.94l6.72-6.72a.75.75 0 0 1 1.06 0Z\"></path>\n        </svg>\n        "

/-- Template text after the interpolated label: the anchor's close tag. -/
def itemHtmlSuffixPart : String := "\n      </a>"

/-- createFilterItem, lines 146-159, string level: the itemHtml template
literal with checked, the href parts and the label interpolated, as handed to
createElementFromHtml (lines 140-144), whose trim of the leading and trailing
template whitespace is already applied. -/
def createFilterItemHtml (path label query : String) (checked : Bool) : String :=
  itemHtmlPre checked ++ filterItemHref path query ++ itemHtmlMid ++ label ++ itemHtmlSuffixPart

/- ============================================================
   Helper lemmas
   ============================================================ -/

set_option maxRecDepth 40000
set_option maxHeartbeats 2000000

theorem startsWithList_iff : ∀ (sub l : List Char),
    startsWithList l sub = true ↔ ∃ post, l = sub ++ post := by
  intro sub
  induction sub with
  | nil => intro l; simp [startsWithList]
  | cons d ds ih =>
    intro l
    cases l with
    | nil => simp [startsWithList]
    | cons c cs =>
      simp only [startsWithList, Bool.and_eq_true, decide_eq_true_eq, ih cs,
        List.cons_append, List.cons.injEq]
      constructor
      · rintro ⟨rfl, post, rfl⟩; exact ⟨post, rfl, rfl⟩
      · rintro ⟨post, rfl, rfl⟩; exact ⟨rfl, post, rfl⟩

theorem containsSubList_iff : ∀ (l sub : List Char),
    containsSubList l sub = true ↔ ∃ pre post, l = pre ++ (sub ++ post) := by
  intro l sub
  induction l with
  | nil =>
    rw [containsSubList, startsWithList_iff]
    constructor
    · rintro ⟨post, h⟩; exact ⟨[], post, by simp [h]⟩
    · rintro ⟨pre, post, h⟩
      refine ⟨post ++ pre, ?_⟩
      rcases List.append_eq_nil.mp h.symm with ⟨h1, h2⟩
      rcases List.append_eq_nil.mp h2 with ⟨h3, h4⟩
      simp [h1, h3, h4]
  | cons c cs ih =>
    rw [containsSubList]
    simp only [Bool.or_eq_true, startsWithList_iff, ih]
    constructor
    · rintro (⟨post, h⟩ | ⟨pre, post, h⟩)
      · exact ⟨[], post, by simpa using h⟩
      · exact ⟨c :: pre, post, by simp [h]⟩
    · rintro ⟨pre, post, h⟩
      cases pre with
      | nil => exact Or.inl ⟨post, by simpa using h⟩
      | cons p ps =>
        simp only [List.cons_append, List.cons.injEq] at h
        exact Or.inr ⟨ps, post, h.2⟩

theorem foldr_item (fs : List SavedFilter) (init : List Elem) :
    List.foldr (fun x y => createFilterItem x.label x.query false :: y) init fs
      = fs.map (fun f => createFilterItem f.label f.query false) ++ init := by
  induction fs with
  | nil => rfl
  | cons f fs ih => simp [ih]

theorem clearOldItemsList_idem (l : List Elem) :
    clearOldItemsList (clearOldItemsList l) = clearOldItemsList l := by
  simp [clearOldItemsList, List.filter_filter]

theorem clearOldItemsList_cons_item (label query : String) (checked : Bool) (l : List Elem) :
    clearOldItemsList (createFilterItem label query checked :: l) = clearOldItemsList l := by
  simp [clearOldItemsList, createFilterItem, isCustomItem]

theorem clearOldItemsList_map_items (fs : List SavedFilter) (l : List Elem) :
    clearOldItemsList ((fs.map fun f => createFilterItem f.label f.query false) ++ l)
      = clearOldItemsList l := by
  induction fs with
  | nil => rfl
  | cons f fs ih =>
    simp only [List.map_cons, List.cons_append, clearOldItemsList_cons_item]
    exact ih

theorem tagStateAfter_append : ∀ (a b : List Char) (st : Bool),
    tagStateAfter (a ++ b) st = tagStateAfter b (tagStateAfter a st) := by
  intro a
  induction a with
  | nil => intro b st; rfl
  | cons c cs ih =>
    intro b st
    by_cases h1 : c = '<'
    · simp [tagStateAfter, h1, ih]
    · by_cases h2 : c = '>'
      · simp [tagStateAfter, h1, h2, ih]
      · simp [tagStateAfter, h1, h2, ih]

theorem textContentAux_append : ∀ (a b : List Char) (st : Bool),
    textContentAux (a ++ b) st = textContentAux a st ++ textContentAux b (tagStateAfter a st) := by
  intro a
  induction a with
  | nil => intro b st; rfl
  | cons c cs ih =>
    intro b st
    by_cases h1 : c = '<'
    · simp [textContentAux, tagStateAfter, h1, ih]
    · by_cases h2 : c = '>'
      · simp [textContentAux, tagStateAfter, h1, h2, ih]
      · cases st <;> simp [textContentAux, tagStateAfter, h1, h2, ih]

theorem textContentAux_no_markup : ∀ (l : List Char),
    (∀ c ∈ l, c ≠ '<' ∧ c ≠ '>') →
    textContentAux l false = l ∧ tagStateAfter l false = false := by
  intro l
  induction l with
  | nil => intro _; exact ⟨rfl, rfl⟩
  | cons c cs ih =>
    intro h
    have hc := h c (by simp)
    have hcs := ih (fun d hd => h d (by simp [hd]))
    simp [textContentAux, tagStateAfter, hc.1, hc.2, hcs.1, hcs.2]

theorem tagStateAfter_itemHtmlMid : ∀ st : Bool, tagStateAfter itemHtmlMid.data st = false := by
  decide

/- ============================================================
   JSON round trip (persistence layer)
   ============================================================ -/

theorem mkData (s : String) : String.mk s.data = s := rfl

theorem stripPrefixChars_append (p : List Char) : ∀ l : List Char,
    stripPrefixChars p (p ++ l) = some l := by
  induction p with
  | nil => intro l; rfl
  | cons c cs ih => intro l; simp [stripPrefixChars, ih]

theorem hexVal_hexLower : ∀ n, n < 16 → hexVal (hexLower n) = some n := by decide

theorem jsonEscapeChar_length_pos (c : Char) : 0 < (jsonEscapeChar c).length := by
  unfold jsonEscapeChar
  split_ifs <;> simp

theorem flatMap_jsonEscape_length (l : List Char) :
    l.length ≤ (l.flatMap jsonEscapeChar).length := by
  induction l with
  | nil => simp
  | cons c cs ih =>
    have hc := jsonEscapeChar_length_pos c
    simp only [List.flatMap_cons, List.length_cons, List.length_append]
    omega

theorem parseJsonStringGo_quote : ∀ (l : List Char) (fuel : Nat) (rest : List Char),
    l.length < fuel →
    parseJsonStringGo fuel (l.flatMap jsonEscapeChar ++ quoteChar :: rest) = some (l, rest) := by
  have hbq : ¬ ('\\' : Char) = quoteChar := by decide
  have hqu : ¬ (quoteChar = 'u') := by decide
  have dq : decodeJsonEscape quoteChar = some quoteChar := by decide
  have dbs : decodeJsonEscape '\\' = some '\\' := by decide
  have db : decodeJsonEscape 'b' = some (Char.ofNat 8) := by decide
  have dt : decodeJsonEscape 't' = some (Char.ofNat 9) := by decide
  have dn : decodeJsonEscape 'n' = some (Char.ofNat 10) := by decide
  have df : decodeJsonEscape 'f' = some (Char.ofNat 12) := by decide
  have dr : decodeJsonEscape 'r' = some (Char.ofNat 13) := by decide
  intro l
  induction l with
  | nil =>
    intro fuel rest hf
    cases fuel with
    | zero => omega
    | succ k => simp [parseJsonStringGo]
  | cons c cs ih =>
    intro fuel rest hf
    cases fuel with
    | zero => omega
    | succ k =>
      have hcs : cs.length < k := by
        simp only [List.length_cons] at hf
        omega
      have hIH := ih k rest hcs
      rw [List.flatMap_cons, List.append_assoc]
      by_cases h1 : c = quoteChar
      · subst h1
        simp [jsonEscapeChar, parseJsonStringGo, hbq, hqu, dq, hIH]
      · by_cases h2 : c = '\\'
        · subst h2
          simp [jsonEscapeChar, h1, parseJsonStringGo, hbq, dbs, hIH]
        · by_cases h3 : c = Char.ofNat 8
          · subst h3
            simp [jsonEscapeChar, h1, h2, parseJsonStringGo, hbq, db, hIH]
          · by_cases h4 : c = Char.ofNat 9
            · subst h4
              simp [jsonEscapeChar, h1, h2, h3, parseJsonStringGo, hbq, dt, hIH]
            · by_cases h5 : c = Char.ofNat 10
              · subst h5
                simp [jsonEscapeChar, h1, h2, h3, h4, parseJsonStringGo, hbq, dn, hIH]
              · by_cases h6 : c = Char.ofNat 12
                · subst h6
                  simp [jsonEscapeChar, h1, h2, h3, h4, h5, parseJsonStringGo, hbq, df, hIH]
                · by_cases h7 : c = Char.ofNat 13
                  · subst h7
                    simp [jsonEscapeChar, h1, h2, h3, h4, h5, h6, parseJsonStringGo, hbq, dr, hIH]
                  · by_cases h8 : c.toNat < 32
                    · have e1 : hexVal (hexLower (c.toNat / 16)) = some (c.toNat / 16) :=
                        hexVal_hexLower _ (by omega)
                      have e2 : hexVal (hexLower (c.toNat % 16)) = some (c.toNat % 16) :=
                        hexVal_hexLower _ (by omega)
                      have h0 : hexVal '0' = some 0 := by decide
                      have hofn : Char.ofNat c.toNat = c := Char.ofNat_toNat c
                      have hn : c.toNat / 16 * 16 + c.toNat % 16 = c.toNat := by omega
                      have hs : ¬ (55296 ≤ c.toNat ∧ c.toNat ≤ 57343) := by omega
                      simp [jsonEscapeChar, h1, h2, h3, h4, h5, h6, h7, h8, parseJsonStringGo,
                        parseUEscape, hbq, h0, e1, e2, hn, hs, hofn, hIH]
                    · simp [jsonEscapeChar, h1, h2, h3, h4, h5, h6, h7, h8,
                        parseJsonStringGo, hIH]

theorem parseJsonString_quoted (s : String) (rest : List Char) :
    parseJsonString ((s.data.flatMap jsonEscapeChar) ++ quoteChar :: rest)
      = some (s.data, rest) := by
  apply parseJsonStringGo_quote
  have h := flatMap_jsonEscape_length s.data
  simp only [List.length_append, List.length_cons]
  omega

theorem stripBrace (l : List Char) : stripPrefixChars ['\x7d'] ('\x7d' :: l) = some l := by
  simp [stripPrefixChars]

theorem parseFilterObj_stringify (f : SavedFilter) (rest : List Char) :
    parseFilterObj (stringifyFilter f ++ rest) = some (f, rest) := by
  have hshape : stringifyFilter f ++ rest
      = (labelKey ++ [quoteChar]) ++ ((f.label.data.flatMap jsonEscapeChar) ++ quoteChar ::
          ((queryKey ++ [quoteChar]) ++ ((f.query.data.flatMap jsonEscapeChar) ++ quoteChar ::
            ('\x7d' :: rest)))) := by
    simp [stringifyFilter, jsonQuoteString, List.append_assoc]
  rw [hshape, parseFilterObj, stripPrefixChars_append]
  simp only [parseJsonString_quoted, stripPrefixChars_append, stripBrace, mkData]

theorem parseItemsFuel_printed : ∀ (fs : List SavedFilter) (f : SavedFilter) (fuel : Nat),
    fs.length < fuel →
    parseItemsFuel fuel (joinComma ((f :: fs).map stringifyFilter) ++ [']']) = some (f :: fs) := by
  intro fs
  induction fs with
  | nil =>
    intro f fuel hf
    cases fuel with
    | zero => omega
    | succ k =>
      simp only [List.map_cons, List.map_nil, joinComma]
      rw [parseItemsFuel, parseFilterObj_stringify]
      rfl
  | cons f2 fs2 ih =>
    intro f fuel hf
    cases fuel with
    | zero => omega
    | succ k =>
      have hj : joinComma ((f :: f2 :: fs2).map stringifyFilter) ++ [']']
          = stringifyFilter f ++ (',' :: (joinComma ((f2 :: fs2).map stringifyFilter) ++ [']'])) := by
        simp [joinComma, List.append_assoc]
      rw [hj, parseItemsFuel, parseFilterObj_stringify]
      have hrec := ih f2 k (by simp only [List.length_cons] at hf ⊢; omega)
      simp only [List.map_cons] at hrec ⊢
      simp [hrec]

theorem stringifyFilter_length_pos (f : SavedFilter) : 0 < (stringifyFilter f).length := by
  simp [stringifyFilter, labelKey]

theorem joinComma_length_ge : ∀ (fs : List SavedFilter),
    fs.length ≤ (joinComma (fs.map stringifyFilter)).length := by
  intro fs
  induction fs with
  | nil => simp [joinComma]
  | cons f fs ih =>
    cases fs with
    | nil => simpa [joinComma] using stringifyFilter_length_pos f
    | cons f2 fs2 =>
      have h1 := stringifyFilter_length_pos f
      simp only [List.map_cons, joinComma, List.length_append, List.length_cons] at ih ⊢
      omega

theorem parseFilters_stringify (fs : List SavedFilter) :
    parseFilters (stringifyFilters fs) = some fs := by
  cases fs with
  | nil => rfl
  | cons f fs2 =>
    have hlen : fs2.length < (joinComma ((f :: fs2).map stringifyFilter) ++ [']']).length := by
      have := joinComma_length_ge (f :: fs2)
      simp only [List.length_append, List.length_cons] at this ⊢
      omega
    have hmain := parseItemsFuel_printed fs2 f _ hlen
    have hne : ¬ (joinComma ((f :: fs2).map stringifyFilter) ++ [']']) = [']'] := by
      intro h
      have := congrArg List.length h
      simp only [List.length_append, List.length_cons, List.length_nil] at this
      have h2 := joinComma_length_ge (f :: fs2)
      simp only [List.length_cons] at h2
      omega
    rw [stringifyFilters]
    show parseFilters (String.mk ('[' :: (joinComma ((f :: fs2).map stringifyFilter) ++ [']'])))
      = some (f :: fs2)
    rw [parseFilters]
    simp only [hne, if_false, hmain]

/-- C4: for every sequence of filters (label/query string pairs), saving with
saveFilters and then reading with loadFilters returns a sequence equal to the
one saved (round trip through JSON serialization and the storage key). -/
theorem claim_C4_round_trip : ∀ (path : String) (fs : List SavedFilter) (store : Store),
    loadFilters path (saveFilters path fs store) = fs := by
  intro path fs store
  have hkey : getItem (setItem store (getStorageKey path) (stringifyFilters fs))
      (getStorageKey path) = some (stringifyFilters fs) := by
    simp [getItem, setItem]
  have hne : ¬ (stringifyFilters fs = "") := by
    intro h
    have := congrArg String.data h
    simp [stringifyFilters] at this
  rw [loadFilters, saveFilters, hkey]
  simp [hne, parseFilters_stringify fs]

/- ============================================================
   Claims
   ============================================================ -/

/-- C1 counterexample: with stored filters A, B, C (insertion order) and both
mount points present, the rendered dropdown does not show C, B, A: iterating
the reversed list and prepending each item restores insertion order, so A is
first. -/
theorem claim_C1_counterexample :
    (initializeDropdown ([⟨"A", "qA"⟩, ⟨"B", "qB"⟩, ⟨"C", "qC"⟩] : List SavedFilter)
        (DomState.mk (some []) (some []))).filtersDropdown
      ≠ some [createFilterItem "C" "qC" false, createFilterItem "B" "qB" false,
          createFilterItem "A" "qA" false] := by
  decide

/-- C1 (amended): for every stored filter sequence, a successful render with
both mount points present leaves the injected dropdown items in insertion
order — oldest filter first, most-recently-added last — in front of the
surviving non-custom children. -/
theorem claim_C1_render_order (filters : List SavedFilter) (st : DomState) (dd fc : List Elem)
    (hdd : st.filtersDropdown = some dd) (hfc : st.filterContainer = some fc) :
    (initializeDropdown filters st).filtersDropdown =
      some (filters.map (fun f => createFilterItem f.label f.query false)
        ++ clearOldItemsList dd) := by
  cases st with
  | mk o1 o2 =>
    simp only at hdd hfc
    subst hdd; subst hfc
    cases filters with
    | nil => simp [initializeDropdown]
    | cons f fs => simp [initializeDropdown, foldr_item]

/-- C1 witness: the amended order theorem evaluated at the A, B, C example. -/
theorem claim_C1_render_order_witness :
    (initializeDropdown ([⟨"A", "qA"⟩, ⟨"B", "qB"⟩, ⟨"C", "qC"⟩] : List SavedFilter)
        (DomState.mk (some [Elem.hostElem "li"]) (some []))).filtersDropdown
      = some (([⟨"A", "qA"⟩, ⟨"B", "qB"⟩, ⟨"C", "qC"⟩] : List SavedFilter).map
            (fun f => createFilterItem f.label f.query false)
          ++ clearOldItemsList [Elem.hostElem "li"]) :=
  claim_C1_render_order _ _ _ _ rfl rfl

/-- C2 counterexample: the label is interpolated into the itemHtml markup, so
a markup-like label is parsed as markup and is not displayed verbatim as the
item's text content. -/
theorem claim_C2_counterexample :
    containsSubList (textContent (createFilterItemHtml "" "<b>bold</b>" "" false)).data
      "<b>bold</b>".data = false := by
  decide

/-- C2 (amended): a label free of markup-significant characters is displayed
verbatim inside the rendered item's text content; labels containing markup
characters are interpreted as markup by item construction (the query, in
contrast, is URL-encoded). -/
theorem claim_C2_plain_label (path query label : String) (checked : Bool)
    (h : ∀ c ∈ label.data, c ≠ '<' ∧ c ≠ '>' ∧ c ≠ '&') :
    containsSubList (textContent (createFilterItemHtml path label query checked)).data
      label.data = true := by
  have hdata : (createFilterItemHtml path label query checked).data
      = ((itemHtmlPre checked ++ filterItemHref path query ++ itemHtmlMid).data)
        ++ (label.data ++ itemHtmlSuffixPart.data) := by
    simp [createFilterItemHtml, String.data_append, List.append_assoc]
  have hlab := textContentAux_no_markup label.data (fun c hc => ⟨(h c hc).1, (h c hc).2.1⟩)
  have hstate : tagStateAfter
      ((itemHtmlPre checked ++ filterItemHref path query ++ itemHtmlMid).data) false = false := by
    simp [String.data_append, tagStateAfter_append, tagStateAfter_itemHtmlMid]
  show containsSubList
    (textContentAux (createFilterItemHtml path label query checked).data false) label.data = true
  rw [hdata, textContentAux_append, hstate, textContentAux_append, hlab.1, hlab.2]
  rw [containsSubList_iff]
  exact ⟨textContentAux ((itemHtmlPre checked ++ filterItemHref path query
    ++ itemHtmlMid).data) false, textContentAux itemHtmlSuffixPart.data false,
    by simp [List.append_assoc]⟩

/-- C2 witness: the amended theorem evaluated at a markup-free label. -/
theorem claim_C2_plain_label_witness :
    (∀ c ∈ "My filter".data, c ≠ '<' ∧ c ≠ '>' ∧ c ≠ '&') ∧
    containsSubList (textContent (createFilterItemHtml "/org/repo/pulls" "My filter" "is:open"
      false)).data "My filter".data = true :=
  ⟨by decide, claim_C2_plain_label "/org/repo/pulls" "is:open" "My filter" false (by decide)⟩

/-- C3 counterexample: with both mount points present, rendering twice is not
the same as rendering once: clearOldItems removes only .custom-item elements,
while a fresh fav button is appended to the search container on every render,
so the second render leaves two buttons. -/
theorem claim_C3_counterexample :
    initializeDropdown [] (initializeDropdown [] ⟨some [], some []⟩)
      ≠ initializeDropdown [] ⟨some [], some []⟩ := by
  decide

/-- C3 (amended): the dropdown content is render-idempotent — running
initializeDropdown twice with the filter list and the rest of the DOM
unchanged leaves exactly the dropdown items that one run leaves, because old
custom items are fully cleared before re-insertion; the add-filter button,
however, is appended once per render, so the container is not idempotent. -/
theorem claim_C3_dropdown_idem (filters : List SavedFilter) (st : DomState) :
    (initializeDropdown filters (initializeDropdown filters st)).filtersDropdown
      = (initializeDropdown filters st).filtersDropdown := by
  cases st with
  | mk o1 o2 =>
    cases o1 with
    | none => rfl
    | some dd =>
      cases o2 with
      | none => simp [initializeDropdown, clearOldItemsList_idem]
      | some fc =>
        cases filters with
        | nil => simp [initializeDropdown, clearOldItemsList_idem]
        | cons f fs =>
          simp [initializeDropdown, foldr_item, clearOldItemsList_cons_item,
            clearOldItemsList_map_items, clearOldItemsList_idem]

/-- C5: isPullRequestPage is exactly the substring test for "/pulls" on the
location path; in particular it accepts /org/repo/pulls, rejects
/org/repo/issues, and accepts the substring-match artifact
/org/repo/pulls-archive. -/
theorem claim_C5_page_classification :
    (∀ path : String, isPullRequestPage path = true ↔
      ∃ pre post : List Char, path.data = pre ++ ("/pulls".data ++ post))
    ∧ isPullRequestPage "/org/repo/pulls" = true
    ∧ isPullRequestPage "/org/repo/issues" = false
    ∧ isPullRequestPage "/org/repo/pulls-archive" = true :=
  ⟨fun path => containsSubList_iff path.data "/pulls".data, by decide, by decide, by decide⟩

/-- C6: loadFilters returns the empty sequence when the storage key is
missing, and returns the empty sequence when the stored content fails to
parse as JSON; it is a total function, so no exception reaches the caller. -/
theorem claim_C6_load_safe (path : String) (store : Store) :
    (getItem store (getStorageKey path) = none → loadFilters path store = [])
    ∧ (∀ s : String, getItem store (getStorageKey path) = some s → parseFilters s = none →
        loadFilters path store = []) := by
  constructor
  · intro h; rw [loadFilters, h]
  · intro s h hp
    rw [loadFilters, h]
    by_cases he : s = ""
    · simp [he]
    · simp [he, hp]

/-- C6 witness: the missing-key case and a malformed stored value (a
truncated JSON text). -/
theorem claim_C6_load_safe_witness :
    loadFilters "/org/repo/pulls" (fun _ => none) = []
    ∧ parseFilters "[\x7b\"label\":\"a" = none
    ∧ loadFilters "/org/repo/pulls" (fun _ => some "[\x7b\"label\":\"a") = [] :=
  ⟨(claim_C6_load_safe "/org/repo/pulls" (fun _ => none)).1 rfl, by decide,
   (claim_C6_load_safe "/org/repo/pulls" (fun _ => some "[\x7b\"label\":\"a")).2
     "[\x7b\"label\":\"a" rfl (by decide)⟩

/-- C7: when the mount point never appears on a pull-request page, a
navigation trigger resets the retry counter to 0 and performs exactly 3
delayed re-checks, each preceded by the fixed 500 ms delay, then emits the
non-fatal diagnostic; no render happens, and at the exhausted counter a
further retryInitialization call performs no delay, no check and no render
until a navigation trigger resets the counter. -/
theorem claim_C7_retry_bounded (prev : Nat) (path : String) (mount : Nat → Bool)
    (hpr : isPullRequestPage path = true) (hmount : ∀ k, mount k = false) :
    handleLocationChange prev path mount =
      (MAX_RETRY_ATTEMPTS,
        [Event.delayMs RETRY_DELAY, Event.checkMount, Event.delayMs RETRY_DELAY,
         Event.checkMount, Event.delayMs RETRY_DELAY, Event.checkMount, Event.warnDiag])
    ∧ retryInitialization MAX_RETRY_ATTEMPTS mount = (MAX_RETRY_ATTEMPTS, [Event.warnDiag]) := by
  have h3 : retryInitialization 3 mount = (3, [Event.warnDiag]) := by
    rw [retryInitialization]
    simp [MAX_RETRY_ATTEMPTS]
  have h2 : retryInitialization 2 mount
      = (3, [Event.delayMs RETRY_DELAY, Event.checkMount, Event.warnDiag]) := by
    rw [retryInitialization]
    simp [MAX_RETRY_ATTEMPTS, hmount 3, h3]
  have h1 : retryInitialization 1 mount
      = (3, [Event.delayMs RETRY_DELAY, Event.checkMount, Event.delayMs RETRY_DELAY,
          Event.checkMount, Event.warnDiag]) := by
    rw [retryInitialization]
    simp [MAX_RETRY_ATTEMPTS, hmount 2, h2]
  have h0 : retryInitialization 0 mount
      = (3, [Event.delayMs RETRY_DELAY, Event.checkMount, Event.delayMs RETRY_DELAY,
          Event.checkMount, Event.delayMs RETRY_DELAY, Event.checkMount, Event.warnDiag]) := by
    rw [retryInitialization]
    simp [MAX_RETRY_ATTEMPTS, hmount 1, h1]
  refine ⟨?_, h3⟩
  rw [handleLocationChange]
  simp [MAX_RETRY_ATTEMPTS, hpr, hmount 0, h0]

/-- C7 witness: the bounded-retry theorem at a concrete page and an
always-absent mount point, starting from a nonzero stale counter. -/
theorem claim_C7_retry_bounded_witness :
    isPullRequestPage "/org/repo/pulls" = true
    ∧ handleLocationChange 7 "/org/repo/pulls" (fun _ => false) =
        (MAX_RETRY_ATTEMPTS,
          [Event.delayMs RETRY_DELAY, Event.checkMount, Event.delayMs RETRY_DELAY,
           Event.checkMount, Event.delayMs RETRY_DELAY, Event.checkMount, Event.warnDiag])
    ∧ retryInitialization MAX_RETRY_ATTEMPTS (fun _ => false)
        = (MAX_RETRY_ATTEMPTS, [Event.warnDiag]) :=
  ⟨by decide,
   (claim_C7_retry_bounded 7 "/org/repo/pulls" (fun _ => false) (by decide) (fun _ => rfl)).1,
   (claim_C7_retry_bounded 7 "/org/repo/pulls" (fun _ => false) (by decide) (fun _ => rfl)).2⟩

/-- C8: in the add-filter flow, an empty current query aborts before the
prompt with no storage write and no prompt shown; a cancelled or empty label
prompt aborts with the in-memory filter list and the persisted store
unchanged (the prompt was shown). -/
theorem claim_C8_add_filter_guards (query : String) (promptResult : Option String)
    (path : String) (filters : List SavedFilter) (store : Store) :
    (query = "" →
      addNewFilter query promptResult path filters store = ((filters, store), false))
    ∧ (query ≠ "" → (promptResult = none ∨ promptResult = some "") →
      addNewFilter query promptResult path filters store = ((filters, store), true)) := by
  constructor
  · intro h; simp [addNewFilter, h]
  · intro h hp
    rcases hp with hp | hp <;> simp [addNewFilter, h, promptAsync, hp]

/-- C8 witness: the guards at an empty query, a cancelled prompt and an empty
label. -/
theorem claim_C8_add_filter_guards_witness :
    addNewFilter "" (some "label") "/p" [] (fun _ => none) = (([], fun _ => none), false)
    ∧ addNewFilter "is:open" none "/p" [] (fun _ => none) = (([], fun _ => none), true)
    ∧ addNewFilter "is:open" (some "") "/p" [] (fun _ => none) = (([], fun _ => none), true) :=
  ⟨(claim_C8_add_filter_guards "" (some "label") "/p" [] (fun _ => none)).1 rfl,
   (claim_C8_add_filter_guards "is:open" none "/p" [] (fun _ => none)).2
     (by decide) (Or.inl rfl),
   (claim_C8_add_filter_guards "is:open" (some "") "/p" [] (fun _ => none)).2
     (by decide) (Or.inr rfl)⟩

/-- C9: the storage key is one constant global string for every location
path, so loadFilters and saveFilters behave identically in every repository
context — persistence does not depend on the repository-scoped path helper
or on the current location. -/
theorem claim_C9_storage_key_global (p1 p2 : String) :
    getStorageKey p1 = getStorageKey p2
    ∧ getStorageKey p1 = STORAGE_PREFIX ++ "global"
    ∧ (∀ store : Store, loadFilters p1 store = loadFilters p2 store)
    ∧ (∀ (fs : List SavedFilter) (store : Store),
        saveFilters p1 fs store = saveFilters p2 fs store) :=
  ⟨rfl, rfl, fun _ => rfl, fun _ _ => rfl⟩

/-- C10: the rendered filter item's link target is the slash, the path's
first two segments joined by a slash (split on the slash separator, entries 1
and 2), the literal /issues?q= — the repository's issues search page, not its
pulls page — and the URL-encoded query; this href value appears verbatim in
the generated item markup. -/
theorem claim_C10_link_target (path label query : String) (checked : Bool) :
    filterItemHref path query
      = "/" ++ String.mk (joinSlash (((splitChar '/' path.data).drop 1).take 2))
        ++ "/issues?q=" ++ encodeURIComponent query
    ∧ createFilterItemHtml path label query checked
      = itemHtmlPre checked ++ filterItemHref path query
        ++ (itemHtmlMid ++ label ++ itemHtmlSuffixPart)
    ∧ filterItemHref "/org/repo/pulls" "is:open author:me"
      = "/org/repo/issues?q=is%3Aopen%20author%3Ame" := by
  refine ⟨rfl, ?_, by decide⟩
  simp [createFilterItemHtml, String.append_assoc]
